import Mathlib

/-!
Verification development for the blinkpad note-synchronization core.

The editable surface's markup is modelled as a forest of HTML nodes
(`Markup`); a markup string and its parsed DOM fragment are identified, so
`innerHTML` assignment and serialization are the identity on forests.  The
empty string corresponds to the empty forest `[]`.  Text aggregation
(`textContent`) is modelled as a character list.
-/

namespace Blinkpad

/-- An HTML node: a text node or an element with a tag and child nodes.
Attributes are not tracked: the only attribute the core mutates
(`data-empty` on the container) is set on the container itself and never
appears in the `innerHTML` serialization the code compares and stores. -/
inductive HNode where
  | text : String → HNode
  | elem : String → List HNode → HNode

/-- A DOM fragment: the child list of a container element. -/
abbrev Markup := List HNode

mutual

def decEqHNode : (a b : HNode) → Decidable (a = b)
  | HNode.text s, HNode.text t =>
    match String.decEq s t with
    | Decidable.isTrue h => Decidable.isTrue (by rw [h])
    | Decidable.isFalse h =>
        Decidable.isFalse (by intro hh; injection hh; contradiction)
  | HNode.text _, HNode.elem _ _ =>
      Decidable.isFalse (by intro hh; exact HNode.noConfusion hh)
  | HNode.elem _ _, HNode.text _ =>
      Decidable.isFalse (by intro hh; exact HNode.noConfusion hh)
  | HNode.elem t1 c1, HNode.elem t2 c2 =>
    match String.decEq t1 t2, decEqForest c1 c2 with
    | Decidable.isTrue h1, Decidable.isTrue h2 =>
        Decidable.isTrue (by rw [h1, h2])
    | Decidable.isFalse h1, _ =>
        Decidable.isFalse (by intro hh; injection hh; contradiction)
    | _, Decidable.isFalse h2 =>
        Decidable.isFalse (by intro hh; injection hh; contradiction)

def decEqForest : (a b : List HNode) → Decidable (a = b)
  | [], [] => Decidable.isTrue rfl
  | [], _ :: _ => Decidable.isFalse (by intro hh; exact List.noConfusion hh)
  | _ :: _, [] => Decidable.isFalse (by intro hh; exact List.noConfusion hh)
  | x :: xs, y :: ys =>
    match decEqHNode x y, decEqForest xs ys with
    | Decidable.isTrue h1, Decidable.isTrue h2 =>
        Decidable.isTrue (by rw [h1, h2])
    | Decidable.isFalse h1, _ =>
        Decidable.isFalse (by intro hh; injection hh; contradiction)
    | _, Decidable.isFalse h2 =>
        Decidable.isFalse (by intro hh; injection hh; contradiction)

end

instance : DecidableEq HNode := decEqHNode

/-- Tags of `NON_TEXT_CONTENT_SELECTOR` in the source:
`"img, svg, canvas, video, audio, object, embed, iframe, picture, figure, hr"`. -/
def nonTextContentTags : List String :=
  ["img", "svg", "canvas", "video", "audio", "object", "embed", "iframe",
   "picture", "figure", "hr"]

mutual

/-- `node.textContent`: concatenated text data of the subtree, as characters. -/
def nodeTextChars : HNode → List Char
  | HNode.text s => s.data
  | HNode.elem _ children => forestTextChars children

/-- `textContent` of a fragment: concatenation over the child list. -/
def forestTextChars : List HNode → List Char
  | [] => []
  | n :: rest => nodeTextChars n ++ forestTextChars rest

end

mutual

/-- Whether a node matches `NON_TEXT_CONTENT_SELECTOR` or has a descendant
that does (`querySelector` searches the whole subtree). -/
def nodeHasNonText : HNode → Bool
  | HNode.text _ => false
  | HNode.elem tag children =>
      nonTextContentTags.contains tag || forestHasNonText children

/-- `container.querySelector(NON_TEXT_CONTENT_SELECTOR) !== null`:
some descendant of the container matches the selector. -/
def forestHasNonText : List HNode → Bool
  | [] => false
  | n :: rest => nodeHasNonText n || forestHasNonText rest

end

/-- The JavaScript whitespace set recognized by `String.prototype.trim`. -/
def isJsWhitespace (c : Char) : Bool :=
  let n := c.toNat
  n = 0x9 || n = 0xa || n = 0xb || n = 0xc || n = 0xd || n = 0x20 ||
  n = 0xa0 || n = 0x1680 || (0x2000 ≤ n && n ≤ 0x200a) || n = 0x2028 ||
  n = 0x2029 || n = 0x202f || n = 0x205f || n = 0x3000 || n = 0xfeff

/-- Removal of every zero-width space, U+200B (the source's global regex
replace of that character with the empty string). -/
def stripZeroWidth (l : List Char) : List Char :=
  l.filter (fun c => c.toNat ≠ 0x200b)

/-- `.trim()`: drop JS whitespace from both ends. -/
def trimJs (l : List Char) : List Char :=
  ((l.dropWhile isJsWhitespace).reverse.dropWhile isJsWhitespace).reverse

/-- Strip zero-width spaces, then trim — the cleaning step the source
applies to `textContent` before every emptiness test. -/
def cleanedText (l : List Char) : List Char :=
  trimJs (stripZeroWidth l)

/-- Canonical empty content: the source string `"<div><br></div>"`. -/
def emptyMarkerMarkup : Markup := [HNode.elem "div" [HNode.elem "br" []]]

/-- The `hasElementChild` test of `normalizeNoteElement`: a direct child
that is an element and either matches the non-text selector or carries
meaningful (cleaned, non-empty) text. -/
def isMeaningfulBlockChild : HNode → Bool
  | HNode.text _ => false
  | HNode.elem tag children =>
      nonTextContentTags.contains tag ||
      cleanedText (forestTextChars children) != []

/-- `normalizeNoteElement` (src/unnamed/part_005 lines 228-268) on the
container's child forest.  The function mutates the element to exactly the
forest it returns, so it is modelled as `Markup → Markup`.  The
`data-empty` marker attribute lives on the container, outside its
`innerHTML`, and is not tracked. -/
def normalizeNoteElement (element : Markup) : Markup :=
  let trimmedText := cleanedText (forestTextChars element)
  let hasNonTextContent := trimmedText = [] ∧ forestHasNonText element = true
  if trimmedText = [] ∧ ¬hasNonTextContent then
    emptyMarkerMarkup
  else if element.any isMeaningfulBlockChild then
    element
  else
    [HNode.elem "div" element]

/-- `normalizeMarkup`: load markup into a fresh container and normalize it.
With markup identified with its parsed forest this is `normalizeNoteElement`
on a fresh (attribute-free) container. -/
def normalizeMarkup (markup : Markup) : Markup :=
  normalizeNoteElement markup

/-- The emptiness test of `persistImmediately`: the normalized value has no
cleaned text (`hasContent` false) and no non-text content element. -/
def isEffectivelyEmpty (m : Markup) : Bool :=
  decide (cleanedText (forestTextChars m) = []) && !forestHasNonText m

/-- `NOTE_KEY_PREFIX` from constants.ts. -/
def noteKeyPrefixVal : String := "dnv1_"

/-- `DEFAULT_STORAGE_KEY` from constants.ts. -/
def defaultStorageKey : String := "dnv1_root"

/-- `getSlugFromStorageKey` (part_005 lines 330-336): strip the note key
namespace from the storage key, defaulting to the root slug.  Stated over
the keys' character lists (`startsWith`/`slice` on code units). -/
def getSlugFromStorageKey (storageKey : String) : String :=
  if noteKeyPrefixVal.data.isPrefixOf storageKey.data then
    let slug := String.mk (storageKey.data.drop noteKeyPrefixVal.data.length)
    if slug = "" then "root" else slug
  else "root"

/-- First segment of a split on the regex matching an optionally
CR-preceded LF: characters before the first LF, with one trailing CR
(belonging to the separator) removed. -/
def firstLineChars (l : List Char) : List Char :=
  let seg := l.takeWhile (fun c => c ≠ '\n')
  if seg.getLast? = some '\r' then seg.dropLast else seg

/-- `deriveTitleFromMarkup` (part_005 lines 319-328): first trimmed line of
the plain text of the markup, defaulting to "Note".  The guard for falsy
markup corresponds to the empty forest. -/
def deriveTitleFromMarkup (markup : Markup) : String :=
  if markup = [] then "Note"
  else
    let textContent := forestTextChars markup
    let firstLine := trimJs (firstLineChars textContent)
    if firstLine = [] then "Note" else firstLine.asString

/-- Note metadata entry (src/src/utils/noteMetadata.ts). -/
structure NoteMetadata where
  slug : String
  title : String
  updatedAt : Nat
deriving DecidableEq, Repr

/-- The persisted metadata index, abstracted as a map from slug key to
entry (the JSON round-trip through `readIndex`/`writeIndex` is the
identity on well-formed indices). -/
abbrev MetaIndex := String → Option NoteMetadata

/-- `saveNoteMetadata` (noteMetadata.ts lines 52-64).  Returns the updated
index and whether a write to the persisted index was performed. -/
def saveNoteMetadata (index : MetaIndex) (metadata : NoteMetadata) :
    MetaIndex × Bool :=
  match index metadata.slug with
  | some existing =>
    if existing.title = metadata.title ∧
        existing.updatedAt = metadata.updatedAt then
      (index, false)
    else
      (fun k => if k = metadata.slug then some metadata else index k, true)
  | none =>
      (fun k => if k = metadata.slug then some metadata else index k, true)

/-- `deleteNoteMetadata` (noteMetadata.ts lines 66-73): no write when the
slug is absent, otherwise remove the entry. -/
def deleteNoteMetadata (index : MetaIndex) (slug : String) : MetaIndex :=
  match index slug with
  | none => index
  | some _ => fun k => if k = slug then none else index k

/-- State of one note synchronizer together with its observable effects.
`storage` is the persisted store (decompressed view: `writeStoredValue`
compresses and `readStoredValue` decompresses, modelled in
`readStoredValue` separately); `broadcasts` is the sequence of values
posted on the cross-view channel; `pendingPersist` is the debounced
`persistContent` slot; `pendingTitleUpdate` the scheduled title refresh. -/
structure SyncState where
  storage : String → Option Markup
  metaIndex : MetaIndex
  element : Markup
  lastKnownDomValue : Markup
  lastPersistedValue : Option Markup
  pendingPersist : Option Markup
  pendingTitleUpdate : Bool
  broadcasts : List Markup

/-- `persistImmediately` (part_005 lines 526-561), parameterized by the
opaque sanitizer, the storage key and the current clock value
(`Date.now()`).  `broadcastOpt` is `options.broadcast`; storage-adapter
failures are caught and logged in the source, so the model records the
successful effect. -/
def persistImmediately (sanitize : Markup → Markup) (storageKey : String)
    (now : Nat) (s : SyncState) (value : Markup)
    (broadcastOpt : Option Bool) : SyncState × Markup :=
  let slug := getSlugFromStorageKey storageKey
  let sanitized := sanitize value
  let normalized := normalizeMarkup sanitized
  if isEffectivelyEmpty normalized then
    ({ s with
        lastPersistedValue := some [],
        storage := fun k => if k = storageKey then none else s.storage k,
        metaIndex := deleteNoteMetadata s.metaIndex slug,
        broadcasts :=
          if broadcastOpt ≠ some false then s.broadcasts ++ [([] : Markup)]
          else s.broadcasts },
      ([] : Markup))
  else if s.lastPersistedValue = some normalized then
    (s, normalized)
  else
    let title := deriveTitleFromMarkup normalized
    ({ s with
        lastPersistedValue := some normalized,
        metaIndex :=
          (saveNoteMetadata s.metaIndex ⟨slug, title, now⟩).1,
        storage :=
          fun k => if k = storageKey then some normalized else s.storage k,
        broadcasts :=
          if broadcastOpt ≠ some false then s.broadcasts ++ [normalized]
          else s.broadcasts },
      normalized)

namespace NoteSync

/-- `apply` (part_005 lines 567-577): set the surface to the sanitized
value, normalize in place, persist immediately with broadcast suppressed,
flush the title update. -/
def apply (sanitize : Markup → Markup) (storageKey : String) (now : Nat)
    (s : SyncState) (value : Markup) : SyncState × Markup :=
  let sanitized := sanitize value
  let content := if s.element = sanitized then s.element else sanitized
  let normalized := normalizeNoteElement content
  let s1 := { s with element := normalized, lastKnownDomValue := normalized }
  let s2 := (persistImmediately sanitize storageKey now s1 normalized
    (some false)).1
  ({ s2 with pendingTitleUpdate := false }, normalized)

/-- `commit` (part_005 lines 579-590): cancel the pending debounced
persist, set and normalize the surface, persist immediately with the
caller's broadcast option, flush the title update. -/
def commit (sanitize : Markup → Markup) (storageKey : String) (now : Nat)
    (s : SyncState) (value : Markup) (broadcastOpt : Option Bool) :
    SyncState × Markup :=
  let s0 := { s with pendingPersist := none }
  let sanitized := sanitize value
  let content := if s0.element = sanitized then s0.element else sanitized
  let normalized := normalizeNoteElement content
  let s1 := { s0 with element := normalized, lastKnownDomValue := normalized }
  let r := persistImmediately sanitize storageKey now s1 normalized
    broadcastOpt
  ({ r.1 with pendingTitleUpdate := false }, r.2)

/-- `queue` (part_005 lines 592-599): no-op on an unchanged value,
otherwise record it, schedule the debounced title update and the debounced
persist. -/
def queue (s : SyncState) (value : Markup) : SyncState :=
  if value = s.lastKnownDomValue then s
  else
    { s with
        lastKnownDomValue := value,
        pendingTitleUpdate := true,
        pendingPersist := some value }

/-- `clear` (part_005 lines 601-613): cancel pending work, empty and
re-normalize the surface, delete record and metadata, broadcast empty
unless suppressed, flush the title update. -/
def clear (storageKey : String) (s : SyncState)
    (broadcastOpt : Option Bool) : SyncState :=
  let slug := getSlugFromStorageKey storageKey
  let normalizedEmpty := normalizeNoteElement []
  { s with
      pendingPersist := none,
      element := normalizedEmpty,
      lastKnownDomValue := normalizedEmpty,
      lastPersistedValue := some [],
      metaIndex := deleteNoteMetadata s.metaIndex slug,
      storage := fun k => if k = storageKey then none else s.storage k,
      broadcasts :=
        if broadcastOpt ≠ some false then s.broadcasts ++ [([] : Markup)]
        else s.broadcasts,
      pendingTitleUpdate := false }

/-- The debounced `persistContent` timer firing: run `persistImmediately`
on the pending value (with default options) if one is queued. -/
def firePending (sanitize : Markup → Markup) (storageKey : String)
    (now : Nat) (s : SyncState) : SyncState :=
  match s.pendingPersist with
  | none => s
  | some v =>
      (persistImmediately sanitize storageKey now
        { s with pendingPersist := none } v none).1

end NoteSync

/-- Payload of a cross-view channel message: a string, an object carrying a
string `value` property, or anything else. -/
inductive ChannelMessage where
  | str : Markup → ChannelMessage
  | objWithValue : Markup → ChannelMessage
  | malformed : ChannelMessage

/-- The handler's extraction `typeof event.data === "string" ? event.data :
event.data?.value`, kept only when the result is a string. -/
def extractMessageValue : ChannelMessage → Option Markup
  | ChannelMessage.str v => some v
  | ChannelMessage.objWithValue v => some v
  | ChannelMessage.malformed => none

/-- The channel message listener of `initializeNoteContent` (part_005
lines 645-654).  `surfaceIsActive` states that the owner document's
`activeElement` is the editable surface. -/
def handleChannelMessage (sanitize : Markup → Markup) (storageKey : String)
    (now : Nat) (s : SyncState) (data : ChannelMessage)
    (surfaceIsActive : Bool) : SyncState :=
  match extractMessageValue data with
  | none => s
  | some v =>
      if surfaceIsActive then s
      else (NoteSync.apply sanitize storageKey now s v).1

/-!
Persistent store adapter read path.  An async call that can reject is
modelled as `Except Unit`: `Except.error` is a thrown/rejected call.  The
decompressor (`decompressFromUTF16` of lz-string, an opaque external
codec) may throw or yield null; both are covered by
`String → Except Unit (Option String)`.
-/

/-- `readStoredValue` (part_005 lines 32-53): catch a failing `getItem`
and return the empty string; on a stored value, return the decompressed
text when decompression succeeds with a non-null result, and fall back to
the raw stored string when it yields null or throws. -/
def readStoredValue (decompress : String → Except Unit (Option String))
    (store : String → Except Unit (Option String)) (storageKey : String) :
    String :=
  match store storageKey with
  | Except.error _ => ""
  | Except.ok none => ""
  | Except.ok (some storedValue) =>
    match decompress storedValue with
    | Except.ok (some decompressed) => decompressed
    | Except.ok none => storedValue
    | Except.error _ => storedValue

/-!
View placement manager.  Nodes are identified by numeric ids.  The model
tracks the two parents the code can place the surface or placeholder
under: the surface's original parent and the main document's body, each as
an ordered child list.  `elemOwnerMain` records whether the surface
element's `ownerDocument` is the main document (in a detached document the
element is connected to neither modelled list).
-/

structure PlacementDom where
  parentChildren : List Nat
  bodyChildren : List Nat
  elemOwnerMain : Bool
deriving DecidableEq, Repr

/-- A parent node reference recorded in a placement context. -/
inductive ParentRef where
  | mainParent : ParentRef
  | body : ParentRef
deriving DecidableEq, Repr

/-- `NotePlacement` (part_005 lines 374-379): the surface element, its
recorded original parent (none models a null `parentNode`), the recorded
next-sibling anchor, and the placeholder element. -/
structure NotePlacement where
  element : Nat
  originalParent : Option ParentRef
  anchor : Option Nat
  placeholder : Nat
deriving DecidableEq, Repr

/-- `node.isConnected` restricted to the modelled document tree. -/
def isConnected (d : PlacementDom) (n : Nat) : Prop :=
  n ∈ d.parentChildren ∨ n ∈ d.bodyChildren

instance (d : PlacementDom) (n : Nat) : Decidable (isConnected d n) := by
  unfold isConnected; infer_instance

/-- The element following `n` in a child list (`nextSibling` within one
parent). -/
def nextInList : List Nat → Nat → Option Nat
  | [], _ => none
  | x :: xs, n => if x = n then xs.head? else nextInList xs n

/-- `node.nextSibling`: the follower in whichever modelled parent holds
the node (none when detached). -/
def nextSibling (d : PlacementDom) (n : Nat) : Option Nat :=
  if n ∈ d.parentChildren then nextInList d.parentChildren n
  else nextInList d.bodyChildren n

/-- `old.replaceWith(new)` inside one child list: substitute in place;
a node with no parent in this list is untouched. -/
def replaceInList (l : List Nat) (old nw : Nat) : List Nat :=
  l.map fun x => if x = old then nw else x

/-- `old.replaceWith(new)` over the modelled tree. -/
def replaceNode (d : PlacementDom) (old nw : Nat) : PlacementDom :=
  { d with
      parentChildren := replaceInList d.parentChildren old nw,
      bodyChildren := replaceInList d.bodyChildren old nw }

/-- `parent.insertBefore(node, anchor)`: insert before the anchor, or
append when the anchor is null (a stale anchor no longer in the list also
appends in the model; the DOM would throw there, a case no claim
exercises). -/
def insertBeforeList (l : List Nat) (n : Nat) (anchor : Option Nat) :
    List Nat :=
  match anchor with
  | none => l ++ [n]
  | some a =>
    let rec go : List Nat → List Nat
      | [] => [n]
      | x :: xs => if x = a then n :: x :: xs else x :: go xs
    go l

/-- Insert into the child list of the given recorded parent. -/
def insertUnder (d : PlacementDom) (pr : ParentRef) (n : Nat)
    (anchor : Option Nat) : PlacementDom :=
  match pr with
  | ParentRef.mainParent =>
      { d with parentChildren := insertBeforeList d.parentChildren n anchor }
  | ParentRef.body =>
      { d with bodyChildren := insertBeforeList d.bodyChildren n anchor }

/-- `createNotePlacement` (part_005 lines 381-395): record the element's
current parent and next sibling and create a fresh placeholder node. -/
def createNotePlacement (d : PlacementDom) (element placeholderId : Nat) :
    NotePlacement :=
  { element := element,
    originalParent :=
      if element ∈ d.parentChildren then some ParentRef.mainParent
      else if element ∈ d.bodyChildren then some ParentRef.body
      else none,
    anchor := nextSibling d element,
    placeholder := placeholderId }

/-- `showPlaceholder` (part_005 lines 397-414). -/
def showPlaceholder (d : PlacementDom) (ctx : NotePlacement) :
    PlacementDom × NotePlacement :=
  if isConnected d ctx.placeholder then (d, ctx)
  else if isConnected d ctx.element ∧ d.elemOwnerMain = true then
    let anchor := nextSibling d ctx.element
    (replaceNode d ctx.element ctx.placeholder, { ctx with anchor := anchor })
  else
    match ctx.originalParent with
    | some pr => (insertUnder d pr ctx.placeholder ctx.anchor, ctx)
    | none =>
        ({ d with bodyChildren := d.bodyChildren ++ [ctx.placeholder] }, ctx)

/-- `restoreNote` (part_005 lines 416-432).  `document.adoptNode` on an
element owned by another document detaches it there and makes the main
document its owner; an element owned elsewhere is connected to neither
modelled list, so only the flag changes. -/
def restoreNote (d : PlacementDom) (ctx : NotePlacement) :
    PlacementDom × NotePlacement :=
  let d0 := if d.elemOwnerMain = true then d else { d with elemOwnerMain := true }
  let d1 :=
    if isConnected d0 ctx.placeholder then
      replaceNode d0 ctx.placeholder ctx.element
    else
      match ctx.originalParent with
      | some pr => insertUnder d0 pr ctx.element ctx.anchor
      | none => { d0 with bodyChildren := d0.bodyChildren ++ [ctx.element] }
  (d1, { ctx with anchor := nextSibling d1 ctx.element })

/-! Helper lemmas. -/

theorem if_self_eq {α : Type} [DecidableEq α] (a x : α) :
    (if a = x then a else x) = x := by
  split
  · assumption
  · rfl

theorem deleteNoteMetadata_self (index : MetaIndex) (slug : String) :
    deleteNoteMetadata index slug slug = none := by
  unfold deleteNoteMetadata
  cases hx : index slug with
  | none => exact hx
  | some m => simp

theorem persist_pendingPersist (sanitize : Markup → Markup)
    (storageKey : String) (now : Nat) (s : SyncState) (value : Markup)
    (broadcastOpt : Option Bool) :
    (persistImmediately sanitize storageKey now s value
      broadcastOpt).1.pendingPersist = s.pendingPersist := by
  simp only [persistImmediately]
  split_ifs <;> rfl

theorem firePending_of_none (sanitize : Markup → Markup)
    (storageKey : String) (now : Nat) (s : SyncState)
    (h : s.pendingPersist = none) :
    NoteSync.firePending sanitize storageKey now s = s := by
  unfold NoteSync.firePending
  rw [h]

/-- The channel effect of `persistImmediately`: a message is posted exactly
when broadcasting is not suppressed and either the delete branch runs or
the normalized value differs from the last persisted one; the message is
the persisted result. -/
theorem persist_broadcasts (sanitize : Markup → Markup)
    (storageKey : String) (now : Nat) (s : SyncState) (value : Markup)
    (broadcastOpt : Option Bool) :
    (persistImmediately sanitize storageKey now s value
        broadcastOpt).1.broadcasts =
      if broadcastOpt ≠ some false ∧
          (isEffectivelyEmpty (normalizeMarkup (sanitize value)) = true ∨
            s.lastPersistedValue ≠ some (normalizeMarkup (sanitize value)))
      then s.broadcasts ++
        [if isEffectivelyEmpty (normalizeMarkup (sanitize value))
          then ([] : Markup) else normalizeMarkup (sanitize value)]
      else s.broadcasts := by
  unfold persistImmediately
  by_cases h1 : isEffectivelyEmpty (normalizeMarkup (sanitize value)) = true
  · by_cases h3 : broadcastOpt = some false
    · simp [h1, h3]
    · simp [h1, h3]
  · have h1f : isEffectivelyEmpty (normalizeMarkup (sanitize value)) = false :=
      Bool.not_eq_true _ ▸ Bool.of_not_eq_true h1
    by_cases h2 : s.lastPersistedValue = some (normalizeMarkup (sanitize value))
    · simp [h1f, h2]
    · by_cases h3 : broadcastOpt = some false
      · simp [h1f, h2, h3]
      · simp [h1f, h2, h3]

/-! Claim theorems. -/

/-- C1: for every value whose sanitized, normalized form has no cleaned
text and no non-text content element, the persist step removes the
record under the storage key, deletes the note's metadata entry, posts
an empty broadcast unless suppressed, and returns the empty value — so
no empty-but-present record is ever written. -/
theorem persist_empty_deletes (sanitize : Markup → Markup)
    (storageKey : String) (now : Nat) (s : SyncState) (value : Markup)
    (broadcastOpt : Option Bool)
    (h : isEffectivelyEmpty (normalizeMarkup (sanitize value)) = true) :
    (persistImmediately sanitize storageKey now s value
      broadcastOpt).1.storage storageKey = none ∧
    (persistImmediately sanitize storageKey now s value
      broadcastOpt).1.metaIndex (getSlugFromStorageKey storageKey) = none ∧
    (persistImmediately sanitize storageKey now s value
      broadcastOpt).1.broadcasts =
      (if broadcastOpt ≠ some false then s.broadcasts ++ [([] : Markup)]
        else s.broadcasts) ∧
    (persistImmediately sanitize storageKey now s value broadcastOpt).2 =
      [] := by
  refine ⟨?_, ?_, ?_, ?_⟩ <;>
    simp [persistImmediately, h, deleteNoteMetadata_self]

def c1State : SyncState :=
  { storage := fun k =>
      if k = "dnv1_abc" then some [HNode.elem "div" [HNode.text "x"]]
      else none
    metaIndex := fun k => if k = "abc" then some ⟨"abc", "x", 3⟩ else none
    element := [HNode.elem "div" [HNode.text "x"]]
    lastKnownDomValue := [HNode.elem "div" [HNode.text "x"]]
    lastPersistedValue := some [HNode.elem "div" [HNode.text "x"]]
    pendingPersist := none
    pendingTitleUpdate := false
    broadcasts := [] }

/-- Witness for C1 at a whitespace-only value. -/
theorem persist_empty_deletes_witness :
    isEffectivelyEmpty (normalizeMarkup ((fun m => m)
      [HNode.text "  "])) = true ∧
    (persistImmediately (fun m => m) "dnv1_abc" 7 c1State [HNode.text "  "]
      none).1.storage "dnv1_abc" = none ∧
    (persistImmediately (fun m => m) "dnv1_abc" 7 c1State [HNode.text "  "]
      none).1.metaIndex "abc" = none :=
  ⟨by decide,
    (persist_empty_deletes (fun m => m) "dnv1_abc" 7 c1State
      [HNode.text "  "] none (by decide)).1,
    (persist_empty_deletes (fun m => m) "dnv1_abc" 7 c1State
      [HNode.text "  "] none (by decide)).2.1⟩

def c2State : SyncState :=
  { storage := fun _ => none
    metaIndex := fun _ => none
    element := [HNode.elem "div" [HNode.text "a"]]
    lastKnownDomValue := [HNode.elem "div" [HNode.text "a"]]
    lastPersistedValue := some [HNode.elem "div" [HNode.text "a"]]
    pendingPersist := none
    pendingTitleUpdate := false
    broadcasts := [] }

/-- C2 (counterexample): with broadcasting not suppressed, `commit` posts
nothing when the normalized value equals the last persisted value — here a
commit of text "a" onto a state whose last persisted value is already its
normalized form leaves the channel silent. -/
theorem commit_broadcast_counterexample :
    (NoteSync.commit (fun m => m) "dnv1_root" 0 c2State [HNode.text "a"]
      none).1.broadcasts = [] ∧
    (none : Option Bool) ≠ some false := by
  constructor
  · decide
  · decide

/-- The value `commit` hands to the persist step, re-sanitized and
re-normalized by the persist step itself. -/
def commitRenormalized (sanitize : Markup → Markup) (value : Markup) :
    Markup :=
  normalizeMarkup (sanitize (normalizeNoteElement (sanitize value)))

/-- C2 (amended): `apply` never posts on the channel; `commit` posts the
persisted value exactly when broadcasting is not explicitly suppressed and
the persist step does not skip (its renormalized value is effectively
empty or differs from the last persisted value). -/
theorem apply_no_broadcast_commit_guarded (sanitize : Markup → Markup)
    (storageKey : String) (now : Nat) (s : SyncState) (value : Markup)
    (broadcastOpt : Option Bool) :
    (NoteSync.apply sanitize storageKey now s value).1.broadcasts =
      s.broadcasts ∧
    (NoteSync.commit sanitize storageKey now s value
        broadcastOpt).1.broadcasts =
      (if broadcastOpt ≠ some false ∧
          (isEffectivelyEmpty (commitRenormalized sanitize value) = true ∨
            s.lastPersistedValue ≠ some (commitRenormalized sanitize value))
        then s.broadcasts ++
          [if isEffectivelyEmpty (commitRenormalized sanitize value)
            then ([] : Markup) else commitRenormalized sanitize value]
        else s.broadcasts) := by
  constructor
  · simp only [NoteSync.apply]
    rw [persist_broadcasts]
    simp
  · simp only [NoteSync.commit, if_self_eq]
    rw [persist_broadcasts]
    simp [commitRenormalized, normalizeMarkup]

/-- C4: a second `queue` of an identical value is a no-op (`queue` itself
never writes storage), and the persist step leaves the state untouched
when the renormalized value equals the last persisted value (the non-empty
skip branch). -/
theorem queue_idempotent_persist_skips (sanitize : Markup → Markup)
    (storageKey : String) (now : Nat) (s s2 : SyncState)
    (value v2 : Markup) (broadcastOpt : Option Bool) :
    NoteSync.queue (NoteSync.queue s value) value = NoteSync.queue s value ∧
    (NoteSync.queue s value).storage = s.storage ∧
    (s2.lastPersistedValue = some (normalizeMarkup (sanitize v2)) →
      isEffectivelyEmpty (normalizeMarkup (sanitize v2)) = false →
      persistImmediately sanitize storageKey now s2 v2 broadcastOpt =
        (s2, normalizeMarkup (sanitize v2))) := by
  refine ⟨?_, ?_, ?_⟩
  · unfold NoteSync.queue
    by_cases h : value = s.lastKnownDomValue
    · simp [h]
    · simp [h]
  · unfold NoteSync.queue
    by_cases h : value = s.lastKnownDomValue
    · simp [h]
    · simp [h]
  · intro h1 h2
    unfold persistImmediately
    simp [h1, h2]

def c4State : SyncState :=
  { storage := fun _ => none
    metaIndex := fun _ => none
    element := [HNode.elem "div" [HNode.text "a"]]
    lastKnownDomValue := [HNode.elem "div" [HNode.text "a"]]
    lastPersistedValue := some [HNode.elem "div" [HNode.text "a"]]
    pendingPersist := none
    pendingTitleUpdate := false
    broadcasts := [] }

/-- Witness for C4: the skip branch at a concrete already-persisted
value. -/
theorem queue_idempotent_persist_skips_witness :
    c4State.lastPersistedValue =
      some (normalizeMarkup ((fun m => m) [HNode.text "a"])) ∧
    persistImmediately (fun m => m) "dnv1_root" 9 c4State [HNode.text "a"]
      none = (c4State, normalizeMarkup ((fun m => m) [HNode.text "a"])) :=
  ⟨by decide,
    (queue_idempotent_persist_skips (fun m => m) "dnv1_root" 9 c4State
      c4State [HNode.text "a"] [HNode.text "a"] none).2.2
      (by decide) (by decide)⟩

/-- C3 (counterexample): normalization is not idempotent.  Markup with no
text whose only non-text content sits nested below the top level — here a
div containing only an img — is re-wrapped in a fresh div on every pass:
no top-level child matches the non-text selector itself or carries
meaningful text, so `hasElementChild` stays false. -/
theorem normalize_not_idempotent :
    normalizeNoteElement (normalizeNoteElement
        [HNode.elem "div" [HNode.elem "img" []]]) ≠
      normalizeNoteElement [HNode.elem "div" [HNode.elem "img" []]] := by
  decide

theorem forestTextChars_wrap (f : Markup) :
    forestTextChars [HNode.elem "div" f] = forestTextChars f := by
  simp [forestTextChars, nodeTextChars]

/-- C3 (amended): normalization is idempotent on every markup except the
exact class the counterexample exhibits — no cleaned text, some non-text
content element, and no top-level child that matches the non-text
selector or carries meaningful text (such markup is re-wrapped on each
pass).  Equivalently, idempotence holds whenever the markup has cleaned
text, or has no non-text content element anywhere, or has a meaningful
top-level child. -/
theorem normalize_idempotent_on_tame (f : Markup)
    (h : cleanedText (forestTextChars f) ≠ [] ∨
      forestHasNonText f = false ∨ f.any isMeaningfulBlockChild = true) :
    normalizeNoteElement (normalizeNoteElement f) = normalizeNoteElement f := by
  by_cases ht : cleanedText (forestTextChars f) = []
  · by_cases hnt : forestHasNonText f = false
    · have h1 : normalizeNoteElement f = emptyMarkerMarkup := by
        unfold normalizeNoteElement
        simp [ht, hnt]
      rw [h1]
      decide
    · have hnt2 : forestHasNonText f = true := by
        cases hb : forestHasNonText f
        · exact absurd hb hnt
        · rfl
      have hc : f.any isMeaningfulBlockChild = true := by
        rcases h with h1 | h1 | h1
        · exact absurd ht h1
        · exact absurd h1 hnt
        · exact h1
      have h1 : normalizeNoteElement f = f := by
        unfold normalizeNoteElement
        simp [ht, hnt2, hc]
      rw [h1]
      exact h1
  · by_cases hc : f.any isMeaningfulBlockChild
    · have h1 : normalizeNoteElement f = f := by
        unfold normalizeNoteElement
        simp [ht, hc]
      rw [h1]
      exact h1
    · have h1 : normalizeNoteElement f = [HNode.elem "div" f] := by
        unfold normalizeNoteElement
        simp [ht, hc]
      rw [h1]
      unfold normalizeNoteElement
      rw [forestTextChars_wrap]
      have hmean : isMeaningfulBlockChild (HNode.elem "div" f) = true := by
        simp [isMeaningfulBlockChild, nonTextContentTags, ht,
          bne_iff_ne, nodeTextChars]
      simp [ht, hmean]

/-- Witness for C3 (amended) at a bare top-level img: no text and a
non-text content element, but the element itself is a meaningful
top-level child, so normalization leaves it alone. -/
theorem normalize_idempotent_on_tame_witness :
    (cleanedText (forestTextChars [HNode.elem "img" []]) ≠ [] ∨
      forestHasNonText [HNode.elem "img" []] = false ∨
      ([HNode.elem "img" []] : Markup).any isMeaningfulBlockChild = true) ∧
    normalizeNoteElement (normalizeNoteElement [HNode.elem "img" []]) =
      normalizeNoteElement [HNode.elem "img" []] :=
  ⟨by decide,
    normalize_idempotent_on_tame [HNode.elem "img" []] (by decide)⟩

/-- C5: a channel message carrying a string value (directly or as the
`value` property) received while the editable surface is its document's
active element leaves the synchronizer state — in particular the surface's
content — completely unchanged: `apply` is not reached. -/
theorem focused_broadcast_ignored (sanitize : Markup → Markup)
    (storageKey : String) (now : Nat) (s : SyncState) (v : Markup) :
    handleChannelMessage sanitize storageKey now s
      (ChannelMessage.str v) true = s ∧
    handleChannelMessage sanitize storageKey now s
      (ChannelMessage.objWithValue v) true = s := by
  constructor <;> rfl

/-- C6: `commit` and `clear` cancel the pending debounced persist and do
not re-schedule one, so firing the debounce afterwards is a no-op — a
stale queued write can never overwrite their synchronous effect. -/
theorem commit_clear_cancel_pending (sanitize : Markup → Markup)
    (storageKey : String) (now : Nat) (s : SyncState) (value : Markup)
    (broadcastOpt : Option Bool) :
    (NoteSync.commit sanitize storageKey now s value
      broadcastOpt).1.pendingPersist = none ∧
    (NoteSync.clear storageKey s broadcastOpt).pendingPersist = none ∧
    NoteSync.firePending sanitize storageKey now
        (NoteSync.commit sanitize storageKey now s value broadcastOpt).1 =
      (NoteSync.commit sanitize storageKey now s value broadcastOpt).1 ∧
    NoteSync.firePending sanitize storageKey now
        (NoteSync.clear storageKey s broadcastOpt) =
      NoteSync.clear storageKey s broadcastOpt := by
  have hcommit : (NoteSync.commit sanitize storageKey now s value
      broadcastOpt).1.pendingPersist = none := by
    simp only [NoteSync.commit]
    rw [persist_pendingPersist]
  have hclear : (NoteSync.clear storageKey s
      broadcastOpt).pendingPersist = none := by
    simp [NoteSync.clear]
  exact ⟨hcommit, hclear,
    firePending_of_none _ _ _ _ hcommit, firePending_of_none _ _ _ _ hclear⟩

/-- C7: `readStoredValue` returns the decompressed text when the stored
string decompresses to a non-null result, the raw stored string when
decompression yields null or throws, and the empty string when nothing is
stored — even a failing backend read yields the empty string, so nothing
escapes to the caller. -/
theorem readStoredValue_spec
    (decompress : String → Except Unit (Option String))
    (store : String → Except Unit (Option String)) (storageKey : String) :
    (store storageKey = Except.ok none →
      readStoredValue decompress store storageKey = "") ∧
    (store storageKey = Except.error () →
      readStoredValue decompress store storageKey = "") ∧
    (∀ sv d, store storageKey = Except.ok (some sv) →
      decompress sv = Except.ok (some d) →
      readStoredValue decompress store storageKey = d) ∧
    (∀ sv, store storageKey = Except.ok (some sv) →
      (decompress sv = Except.ok none ∨ decompress sv = Except.error ()) →
      readStoredValue decompress store storageKey = sv) := by
  refine ⟨fun h1 => ?_, fun h1 => ?_, fun sv d h1 h2 => ?_,
    fun sv h1 h2 => ?_⟩
  · simp [readStoredValue, h1]
  · simp [readStoredValue, h1]
  · simp [readStoredValue, h1, h2]
  · rcases h2 with h2 | h2 <;> simp [readStoredValue, h1, h2]

def c7Store : String → Except Unit (Option String) :=
  fun k => if k = "dnv1_root" then Except.ok (some "zz") else Except.ok none

def c7Decompress : String → Except Unit (Option String) :=
  fun sv => if sv = "zz" then Except.ok (some "hello") else Except.ok none

/-- Witness for C7: a stored value that decompresses successfully. -/
theorem readStoredValue_spec_witness :
    readStoredValue c7Decompress c7Store "dnv1_root" = "hello" :=
  (readStoredValue_spec c7Decompress c7Store "dnv1_root").2.2.1 "zz" "hello"
    rfl rfl

/-- C9: `saveNoteMetadata` performs no write and leaves the index
unchanged when the index already maps the entry's slug to an entry with
equal title and timestamp; otherwise it maps the slug to the new entry
(reporting a write); other slugs are never touched, and saving twice
equals saving once. -/
theorem saveNoteMetadata_spec (index : MetaIndex) (m : NoteMetadata) :
    (∀ e, index m.slug = some e →
      e.title = m.title ∧ e.updatedAt = m.updatedAt →
      saveNoteMetadata index m = (index, false)) ∧
    ((∀ e, index m.slug = some e →
        ¬(e.title = m.title ∧ e.updatedAt = m.updatedAt)) →
      (saveNoteMetadata index m).1 m.slug = some m ∧
      (saveNoteMetadata index m).2 = true) ∧
    (∀ k, k ≠ m.slug → (saveNoteMetadata index m).1 k = index k) ∧
    (saveNoteMetadata (saveNoteMetadata index m).1 m).1 =
      (saveNoteMetadata index m).1 := by
  refine ⟨fun e he hmatch => ?_, fun hmiss => ?_, fun k hk => ?_, ?_⟩
  · unfold saveNoteMetadata
    rw [he]
    simp [hmatch]
  · unfold saveNoteMetadata
    cases he : index m.slug with
    | none => simp
    | some e => simp [hmiss e he]
  · unfold saveNoteMetadata
    cases he : index m.slug with
    | none => simp [hk]
    | some e =>
      by_cases hc : e.title = m.title ∧ e.updatedAt = m.updatedAt
      · simp [hc]
      · simp [hc, hk]
  · cases he : index m.slug with
    | none =>
      have hu : saveNoteMetadata index m =
          (fun k => if k = m.slug then some m else index k, true) := by
        unfold saveNoteMetadata
        rw [he]
      simp only [hu]
      unfold saveNoteMetadata
      simp
    | some e =>
      by_cases hmatch : e.title = m.title ∧ e.updatedAt = m.updatedAt
      · have hu : saveNoteMetadata index m = (index, false) := by
          unfold saveNoteMetadata
          rw [he]
          simp [hmatch]
        simp [hu]
      · have hu : saveNoteMetadata index m =
            (fun k => if k = m.slug then some m else index k, true) := by
          unfold saveNoteMetadata
          rw [he]
          simp [hmatch]
        simp only [hu]
        unfold saveNoteMetadata
        simp

/-- Witness for C9: saving into an index with no entry for the slug maps
the slug to the entry and reports a write. -/
theorem saveNoteMetadata_spec_witness :
    (saveNoteMetadata (fun _ => none) ⟨"a", "t", 5⟩).1 "a" =
      some ⟨"a", "t", 5⟩ ∧
    (saveNoteMetadata (fun _ => none) ⟨"a", "t", 5⟩).2 = true :=
  (saveNoteMetadata_spec (fun _ => none) ⟨"a", "t", 5⟩).2.1 (by simp)

def c10State : SyncState :=
  { storage := fun _ => none
    metaIndex := fun _ => none
    element := [HNode.elem "div" [HNode.text "a"]]
    lastKnownDomValue := [HNode.elem "div" [HNode.text "a"]]
    lastPersistedValue := some [HNode.elem "div" [HNode.text "a"]]
    pendingPersist := none
    pendingTitleUpdate := false
    broadcasts := [] }

/-- C10: a channel message whose payload carries no string value is
ignored: the handler returns with the synchronizer state — surface,
stored record and metadata index — untouched. -/
theorem malformed_message_ignored (sanitize : Markup → Markup)
    (storageKey : String) (now : Nat) (s : SyncState)
    (data : ChannelMessage) (surfaceIsActive : Bool)
    (h : extractMessageValue data = none) :
    handleChannelMessage sanitize storageKey now s data surfaceIsActive =
      s := by
  unfold handleChannelMessage
  rw [h]

/-- Witness for C10 at a malformed payload. -/
theorem malformed_message_ignored_witness :
    handleChannelMessage (fun m => m) "dnv1_root" 0 c10State
      ChannelMessage.malformed false = c10State :=
  malformed_message_ignored (fun m => m) "dnv1_root" 0 c10State
    ChannelMessage.malformed false rfl

/-! List lemmas for the placement round-trip. -/

theorem replaceInList_not_mem {l : List Nat} {a b : Nat} (h : a ∉ l) :
    replaceInList l a b = l := by
  induction l with
  | nil => rfl
  | cons x xs ih =>
    rw [List.mem_cons, not_or] at h
    show ((if x = a then b else x) :: replaceInList xs a b) = x :: xs
    rw [if_neg (fun hh => h.1 hh.symm), ih h.2]

theorem replaceInList_cons (x : Nat) (xs : List Nat) (a b : Nat) :
    replaceInList (x :: xs) a b =
      (if x = a then b else x) :: replaceInList xs a b := rfl

theorem replaceInList_roundtrip {l : List Nat} {a b : Nat} (h : b ∉ l) :
    replaceInList (replaceInList l a b) b a = l := by
  induction l with
  | nil => rfl
  | cons x xs ih =>
    rw [List.mem_cons, not_or] at h
    rw [replaceInList_cons]
    by_cases hxa : x = a
    · rw [if_pos hxa, replaceInList_cons, if_pos rfl, ih h.2, hxa]
    · rw [if_neg hxa, replaceInList_cons,
        if_neg (fun hh => h.1 hh.symm), ih h.2]

theorem mem_replaceInList {l : List Nat} {a : Nat} (b : Nat) (h : a ∈ l) :
    b ∈ replaceInList l a b := by
  induction l with
  | nil => cases h
  | cons x xs ih =>
    show b ∈ (if x = a then b else x) :: replaceInList xs a b
    by_cases hxa : x = a
    · rw [if_pos hxa]
      exact List.mem_cons_self _ _
    · rw [if_neg hxa]
      rcases List.mem_cons.mp h with h1 | h1
      · exact absurd h1.symm hxa
      · exact List.mem_cons_of_mem _ (ih h1)

/-- C8: from an untouched context whose surface is connected under its
original parent in the main document and whose placeholder is a fresh,
unconnected node, `showPlaceholder` followed by `restoreNote` restores
the document exactly — the surface is back at its original position, the
recorded anchor is its original next sibling, and the placeholder is no
longer connected. -/
theorem show_restore_roundtrip (d : PlacementDom) (ctx : NotePlacement)
    (he : ctx.element ∈ d.parentChildren)
    (heb : ctx.element ∉ d.bodyChildren)
    (hp1 : ctx.placeholder ∉ d.parentChildren)
    (hp2 : ctx.placeholder ∉ d.bodyChildren)
    (hown : d.elemOwnerMain = true) :
    (restoreNote (showPlaceholder d ctx).1 (showPlaceholder d ctx).2).1 =
      d ∧
    (restoreNote (showPlaceholder d ctx).1
      (showPlaceholder d ctx).2).2.element = ctx.element ∧
    (restoreNote (showPlaceholder d ctx).1
      (showPlaceholder d ctx).2).2.anchor =
      nextInList d.parentChildren ctx.element ∧
    ¬ isConnected
      (restoreNote (showPlaceholder d ctx).1 (showPlaceholder d ctx).2).1
      ctx.placeholder := by
  have hnc : ¬ isConnected d ctx.placeholder := by
    intro hc
    rcases hc with hc | hc
    · exact hp1 hc
    · exact hp2 hc
  have hcel : isConnected d ctx.element := Or.inl he
  have hshow : showPlaceholder d ctx =
      (replaceNode d ctx.element ctx.placeholder,
        { ctx with anchor := nextSibling d ctx.element }) := by
    unfold showPlaceholder
    rw [if_neg hnc, if_pos ⟨hcel, hown⟩]
  have hown1 : (replaceNode d ctx.element ctx.placeholder).elemOwnerMain =
      true := hown
  have hpc : (replaceNode d ctx.element ctx.placeholder).parentChildren =
      replaceInList d.parentChildren ctx.element ctx.placeholder := rfl
  have hconn : isConnected (replaceNode d ctx.element ctx.placeholder)
      ctx.placeholder :=
    Or.inl (mem_replaceInList ctx.placeholder he)
  have hback : replaceNode (replaceNode d ctx.element ctx.placeholder)
      ctx.placeholder ctx.element = d := by
    unfold replaceNode
    have h1 : replaceInList (replaceInList d.parentChildren ctx.element
        ctx.placeholder) ctx.placeholder ctx.element = d.parentChildren :=
      replaceInList_roundtrip hp1
    have h2 : replaceInList (replaceInList d.bodyChildren ctx.element
        ctx.placeholder) ctx.placeholder ctx.element = d.bodyChildren := by
      rw [replaceInList_not_mem heb, replaceInList_not_mem hp2]
    cases d
    simp_all
  have hrestore : restoreNote (showPlaceholder d ctx).1
      (showPlaceholder d ctx).2 =
      (d, { ctx with anchor := nextSibling d ctx.element }) := by
    rw [hshow]
    simp only [restoreNote]
    rw [if_pos hown1, if_pos hconn, hback]
  refine ⟨?_, ?_, ?_, ?_⟩
  · rw [hrestore]
  · rw [hrestore]
  · rw [hrestore]
    show nextSibling d ctx.element = nextInList d.parentChildren ctx.element
    unfold nextSibling
    rw [if_pos he]
  · rw [hrestore]
    exact hnc

/-- Witness for C8 at a concrete three-child parent. -/
theorem show_restore_roundtrip_witness :
    (restoreNote
      (showPlaceholder ⟨[1, 2, 3], [], true⟩
        ⟨2, some ParentRef.mainParent, some 3, 9⟩).1
      (showPlaceholder ⟨[1, 2, 3], [], true⟩
        ⟨2, some ParentRef.mainParent, some 3, 9⟩).2).1 =
      ⟨[1, 2, 3], [], true⟩ ∧
    (restoreNote
      (showPlaceholder ⟨[1, 2, 3], [], true⟩
        ⟨2, some ParentRef.mainParent, some 3, 9⟩).1
      (showPlaceholder ⟨[1, 2, 3], [], true⟩
        ⟨2, some ParentRef.mainParent, some 3, 9⟩).2).2.anchor = some 3 :=
  ⟨(show_restore_roundtrip ⟨[1, 2, 3], [], true⟩
      ⟨2, some ParentRef.mainParent, some 3, 9⟩
      (by decide) (by decide) (by decide) (by decide) (by decide)).1,
    (show_restore_roundtrip ⟨[1, 2, 3], [], true⟩
      ⟨2, some ParentRef.mainParent, some 3, 9⟩
      (by decide) (by decide) (by decide) (by decide) (by decide)).2.2.1⟩

end Blinkpad
